import Mathlib

/- Verification of `src/calculator.py` (a safe command-line arithmetic
evaluator built on Python's `ast` module) against its natural-language
specification.

Modelling conventions for the shallow embedding:

* Python integers are `Int` (arbitrary precision, as in CPython).
* Python floats are modelled as exact rationals `ℚ`.  IEEE-754 rounding,
  overflow and underflow are not modelled; every concrete float appearing in
  the claims (`0.5`, `2.0`, `0.25`, ...) is exactly representable, so on the
  inputs the claims mention the model agrees with CPython bit-for-bit in
  value and exactly in kind.
* CPython returns a *complex* number when `**` is applied to a negative base
  with a non-integral exponent.  The components of such a number are
  irrational reals, so the model represents any complex value by the symbolic
  constructor `PyVal.complexVal`: its kind (complex) is tracked exactly, its
  components are not.  Every complex value the program can produce is nonzero
  (it has modulus `|base| ^ exponent > 0`), and the model relies on that when
  such a value appears as a divisor.
* A float produced by a non-integral power of a positive base (`2 ** 0.5`) is
  an irrational real; the model represents any float whose exact value it
  does not track by the symbolic constructor `PyVal.floatUnk`.  Such a value
  is treated as nonzero and nonnegative where a branch depends on it; this is
  exact for values directly produced by `**` and is the model's only
  idealisation, confined to expressions that chain several non-integral
  powers.  No claim evaluates such an expression.
* `ast.parse(expr, mode="eval")` is modelled by a tokenizer and a
  recursive-descent parser implementing the CPython expression grammar
  restricted to the fragment this program's inputs exercise: numeric
  literals in all CPython forms, string literals (no escape sequences),
  identifiers, calls, the seven binary and two unary arithmetic operators,
  parentheses (including tuple displays) and list displays.  Comparison,
  boolean, bitwise and other constructs outside this fragment are lexical
  errors in the model; no claim mentions them.
* Rational arithmetic is written with `Rat.divInt` / `mkRat` so that every
  operation reduces inside the kernel.

Python's exception classes map to the spec's error taxonomy (spec §7):
`SyntaxError` (from `ast.parse`) is `PyErr.syntaxError`; the `ValueError`
raised by the evaluator's allow-list is the spec's `UnsupportedConstructError`
and is `PyErr.valueError`; `ZeroDivisionError` is the spec's
`DivisionByZeroError` and is `PyErr.zeroDivisionError`; the `TypeError`
CPython raises when a complex number meets `//` or `%` is
`PyErr.typeError` (outside the spec's taxonomy).  The code raises no
`ArithmeticDomainError` anywhere, so no constructor corresponds to it. -/

/-- Exact rational addition, written with `Rat.divInt` so it kernel-reduces. -/
def qAdd (a b : ℚ) : ℚ := Rat.divInt (a.num * (b.den : Int) + b.num * (a.den : Int)) ((a.den : Int) * (b.den : Int))

/-- Exact rational subtraction. -/
def qSub (a b : ℚ) : ℚ := Rat.divInt (a.num * (b.den : Int) - b.num * (a.den : Int)) ((a.den : Int) * (b.den : Int))

/-- Exact rational multiplication. -/
def qMul (a b : ℚ) : ℚ := Rat.divInt (a.num * b.num) ((a.den : Int) * (b.den : Int))

/-- Exact rational division (caller guarantees `b ≠ 0`). -/
def qDiv (a b : ℚ) : ℚ := Rat.divInt (a.num * (b.den : Int)) ((a.den : Int) * b.num)

/-- Exact rational negation. -/
def qNeg (a : ℚ) : ℚ := Rat.divInt (-a.num) (a.den : Int)

/-- Exact rational power with natural exponent. -/
def qNpow (a : ℚ) : Nat → ℚ
  | 0 => 1
  | n + 1 => qMul a (qNpow a n)

/-- Exact rational reciprocal (caller guarantees `a ≠ 0`). -/
def qInv (a : ℚ) : ℚ := Rat.divInt (a.den : Int) a.num

/-- Exact rational power with integer exponent (caller guarantees `a ≠ 0` when `k < 0`). -/
def qZpow (a : ℚ) (k : Int) : ℚ := if 0 ≤ k then qNpow a k.toNat else qInv (qNpow a (-k).toNat)

/-- Floor of a rational, as an integer (`Int.fdiv` rounds toward `-∞`). -/
def qFloor (a : ℚ) : Int := a.num.fdiv (a.den : Int)

/-- Whether a rational is an integer (Python: `float.is_integer`). -/
def qIsInt (a : ℚ) : Bool := a.den == 1

/-- Integer power with natural exponent (Python `int ** int` with nonnegative exponent). -/
def iNpow (a : Int) : Nat → Int
  | 0 => 1
  | n + 1 => a * iNpow a n

/-- Payload of an `ast.Constant` node.  CPython's parser produces `int`,
`float`, `bool` (for the keywords `True` / `False`), `str` and `None`
constants for the inputs in this program's domain. -/
inductive PyConst where
  | int (n : Int)
  | float (q : ℚ)
  | bool (b : Bool)
  | str (s : String)
  | none
deriving DecidableEq, Repr

/-- The binary-operator classes of the `ast` module (`ast.operator`).  The
first seven are the keys of `_ALLOWED_BIN_OPS`; the remaining ones exist in
the host grammar and are rejected by the membership test in
`_Evaluator.visit_BinOp`. -/
inductive BinOpKind where
  | add | sub | mult | div | floorDiv | mod | pow
  | matMult | lshift | rshift | bitOr | bitXor | bitAnd
deriving DecidableEq, Repr

/-- The unary-operator classes of the `ast` module (`ast.unaryop`).  `uAdd`
and `uSub` are the keys of `_ALLOWED_UNARY_OPS`; `notOp` and `invert` are
rejected by the membership test in `_Evaluator.visit_UnaryOp`. -/
inductive UnaryOpKind where
  | uAdd | uSub | notOp | invert
deriving DecidableEq, Repr

/-- The fragment of CPython's `ast` node types a parse of an input in this
program's domain can produce.  `expression` is the `ast.Expression` root that
`ast.parse(·, mode="eval")` wraps around the body.  Nodes other than
`expression`, `constant`, `binOp` and `unaryOp` are exactly the ones the
evaluator's `generic_visit` rejects. -/
inductive PyExpr where
  | expression (body : PyExpr)
  | constant (c : PyConst)
  | binOp (left : PyExpr) (op : BinOpKind) (right : PyExpr)
  | unaryOp (op : UnaryOpKind) (operand : PyExpr)
  | name (id : String)
  | call (func : PyExpr) (args : List PyExpr)
  | attribute (value : PyExpr) (attr : String)
  | list (elts : List PyExpr)
  | tuple (elts : List PyExpr)
deriving Repr

/-- A Python runtime value the evaluator can produce or consume.  `floatUnk`
is a float of untracked (irrational) value, `complexVal` a complex number of
untracked components; see the header comment.  Strings and `None` never
become values: `visit_Constant` rejects them. -/
inductive PyVal where
  | int (n : Int)
  | float (q : ℚ)
  | floatUnk
  | complexVal
  | bool (b : Bool)
deriving DecidableEq, Repr

/-- The Python exceptions `eval_expr` can raise, i.e. the spec's error
taxonomy as realised by the code: `syntaxError` ↔ spec `SyntaxError`,
`valueError` ↔ spec `UnsupportedConstructError`, `zeroDivisionError` ↔ spec
`DivisionByZeroError`.  `typeError` is the host `TypeError` raised when a
complex value meets `//` or `%`; the spec's `ArithmeticDomainError` has no
counterpart in the code. -/
inductive PyErr where
  | syntaxError (msg : String)
  | valueError (msg : String)
  | zeroDivisionError (msg : String)
  | typeError (msg : String)
deriving DecidableEq, Repr

/-- Python truth of "this value equals zero" for the numeric kinds.  The
symbolic kinds are nonzero (see the header comment). -/
def PyVal.isZero : PyVal → Bool
  | .int n => n == 0
  | .float q => q == 0
  | .bool b => !b
  | .floatUnk => false
  | .complexVal => false

/-- Python's implicit `bool → int` coercion in arithmetic (`True == 1`,
`False == 0`): `bool` is a subclass of `int`. -/
def coerceBool : PyVal → PyVal
  | .bool b => .int (if b then 1 else 0)
  | v => v

/-- The rational value of an exact numeric operand (junk on symbolic kinds,
which every caller excludes by prior matching). -/
def PyVal.toQ : PyVal → ℚ
  | .int n => (n : ℚ)
  | .float q => q
  | .bool b => if b then 1 else 0
  | .floatUnk => 0
  | .complexVal => 0

/-- Shared shape of Python `+`, `-` and `*` on numbers: complex is
contagious, then unknown floats, then `int op int → int`, otherwise float. -/
def binArith (fi : Int → Int → Int) (fq : ℚ → ℚ → ℚ) (a b : PyVal) : PyVal :=
  match a, b with
  | .complexVal, _ => .complexVal
  | _, .complexVal => .complexVal
  | .floatUnk, _ => .floatUnk
  | _, .floatUnk => .floatUnk
  | .int m, .int n => .int (fi m n)
  | x, y => .float (fq x.toQ y.toQ)

/-- Python `/` (`operator.truediv`): zero divisor raises `ZeroDivisionError`,
complex is contagious, and the result is always a float otherwise — even for
two integer operands. -/
def binDiv (a b : PyVal) : Except PyErr PyVal :=
  if b.isZero then .error (.zeroDivisionError "division by zero")
  else
    match a, b with
    | .complexVal, _ => .ok .complexVal
    | _, .complexVal => .ok .complexVal
    | .floatUnk, _ => .ok .floatUnk
    | _, .floatUnk => .ok .floatUnk
    | x, y => .ok (.float (qDiv x.toQ y.toQ))

/-- Python `//` (`operator.floordiv`): a complex operand raises `TypeError`
(before any zero-divisor check, as in CPython: `1j // 0` is a `TypeError`),
a zero divisor raises `ZeroDivisionError`, `int // int` is an integer floored
toward `-∞`, and any float operand gives a floored float. -/
def binFloorDiv (a b : PyVal) : Except PyErr PyVal :=
  match a, b with
  | .complexVal, _ => .error (.typeError "can't take floor of complex number.")
  | _, .complexVal => .error (.typeError "can't take floor of complex number.")
  | _, _ =>
    if b.isZero then .error (.zeroDivisionError "integer division or modulo by zero")
    else
      match a, b with
      | .floatUnk, _ => .ok .floatUnk
      | _, .floatUnk => .ok .floatUnk
      | .int m, .int n => .ok (.int (m.fdiv n))
      | x, y => .ok (.float ((qFloor (qDiv x.toQ y.toQ) : Int) : ℚ))

/-- Python `%` (`operator.mod`): a complex operand raises `TypeError`, a zero
divisor raises `ZeroDivisionError`, `int % int` follows the divisor's sign
(`Int.fmod`), floats use `a - b * floor(a / b)`. -/
def binMod (a b : PyVal) : Except PyErr PyVal :=
  match a, b with
  | .complexVal, _ => .error (.typeError "can't mod complex numbers.")
  | _, .complexVal => .error (.typeError "can't mod complex numbers.")
  | _, _ =>
    if b.isZero then .error (.zeroDivisionError "integer division or modulo by zero")
    else
      match a, b with
      | .floatUnk, _ => .ok .floatUnk
      | _, .floatUnk => .ok .floatUnk
      | .int m, .int n => .ok (.int (m.fmod n))
      | x, y => .ok (.float (qSub x.toQ (qMul y.toQ ((qFloor (qDiv x.toQ y.toQ) : Int) : ℚ))))

/-- Python `**` (`operator.pow`) on numbers.  The branches follow CPython:
a complex base (or exponent) stays complex (`0` to a complex power raises
`ZeroDivisionError`); `int ** int` is an integer for nonnegative exponents, a
float for negative ones, and `0 ** negative` raises `ZeroDivisionError`;
with a float operand, an integral exponent is computed exactly, and a
non-integral exponent gives a complex number for a negative base (the
behaviour the spec wanted replaced by `ArithmeticDomainError`), `0.0` or a
`ZeroDivisionError` for a zero base, and an untracked (irrational) float for
a positive base. -/
def binPow (a b : PyVal) : Except PyErr PyVal :=
  match a, b with
  | .complexVal, _ => .ok .complexVal
  | _, .complexVal =>
    if a.isZero then .error (.zeroDivisionError "0.0 to a negative or complex power")
    else .ok .complexVal
  | .floatUnk, _ => if b.isZero then .ok (.float 1) else .ok .floatUnk
  | _, .floatUnk =>
    if a.isZero then .ok (.float 0)
    else if a.toQ < 0 then .ok .complexVal
    else .ok .floatUnk
  | .int m, .int n =>
    if 0 ≤ n then .ok (.int (iNpow m n.toNat))
    else if m == 0 then .error (.zeroDivisionError "0.0 cannot be raised to a negative power")
    else .ok (.float (qZpow (m : ℚ) n))
  | x, y =>
    let qa := x.toQ
    let qb := y.toQ
    if qIsInt qb then
      if qa == 0 then
        if 0 < qb.num then .ok (.float 0)
        else if qb.num == 0 then .ok (.float 1)
        else .error (.zeroDivisionError "0.0 cannot be raised to a negative power")
      else .ok (.float (qZpow qa qb.num))
    else
      if qa < 0 then .ok .complexVal
      else if qa == 0 then
        if 0 < qb then .ok (.float 0)
        else .error (.zeroDivisionError "0.0 cannot be raised to a negative power")
      else .ok .floatUnk

/-- CPython class name of a binary-operator node, as used in the
`visit_BinOp` error message. -/
def BinOpKind.pyName : BinOpKind → String
  | .add => "Add" | .sub => "Sub" | .mult => "Mult" | .div => "Div"
  | .floorDiv => "FloorDiv" | .mod => "Mod" | .pow => "Pow"
  | .matMult => "MatMult" | .lshift => "LShift" | .rshift => "RShift"
  | .bitOr => "BitOr" | .bitXor => "BitXor" | .bitAnd => "BitAnd"

/-- CPython class name of a unary-operator node, as used in the
`visit_UnaryOp` error message. -/
def UnaryOpKind.pyName : UnaryOpKind → String
  | .uAdd => "UAdd" | .uSub => "USub" | .notOp => "Not" | .invert => "Invert"

/-- Membership in `_ALLOWED_BIN_OPS` (calculator.py lines 23-31). -/
def allowedBin : BinOpKind → Bool
  | .add | .sub | .mult | .div | .floorDiv | .mod | .pow => true
  | _ => false

/-- Membership in `_ALLOWED_UNARY_OPS` (calculator.py lines 33-36). -/
def allowedUnary : UnaryOpKind → Bool
  | .uAdd | .uSub => true
  | _ => false

/-- The function `_ALLOWED_BIN_OPS[op_type](left, right)` applies: Python's
numeric semantics for the seven allowed operators, after the implicit
`bool → int` coercion both operands undergo. -/
def applyBin (op : BinOpKind) (a0 b0 : PyVal) : Except PyErr PyVal :=
  let a := coerceBool a0
  let b := coerceBool b0
  match op with
  | .add => .ok (binArith (· + ·) qAdd a b)
  | .sub => .ok (binArith (· - ·) qSub a b)
  | .mult => .ok (binArith (· * ·) qMul a b)
  | .div => binDiv a b
  | .floorDiv => binFloorDiv a b
  | .mod => binMod a b
  | .pow => binPow a b
  | o => .error (.valueError ("Unsupported binary operator: " ++ o.pyName))

/-- The function `_ALLOWED_UNARY_OPS[op_type](operand)` applies:
`operator.pos` is the identity (coercing `bool`), `operator.neg` negates. -/
def applyUnary (op : UnaryOpKind) (v0 : PyVal) : Except PyErr PyVal :=
  match op with
  | .uAdd => .ok (coerceBool v0)
  | .uSub =>
    match coerceBool v0 with
    | .int n => .ok (.int (-n))
    | .float q => .ok (.float (qNeg q))
    | v => .ok v
  | o => .error (.valueError ("Unsupported unary operator: " ++ o.pyName))

/-- `repr` of a constant, for the `visit_Constant` error message. -/
def PyConst.pyRepr : PyConst → String
  | .str s => "'" ++ s ++ "'"
  | .none => "None"
  | _ => ""

/-- `_Evaluator.visit` (calculator.py lines 42-79): dispatch on the node
class.  `visit_Expression` visits the body; `visit_Constant` admits exactly
the values satisfying `isinstance(value, (int, float))` — which includes
`bool`, a subclass of `int`; `visit_BinOp` and `visit_UnaryOp` test the
operator class against the allow-list *before* visiting operands, visit left
before right, and apply the mapped function; every other node class falls to
the overridden `generic_visit`, which raises `ValueError`. -/
def visit : PyExpr → Except PyErr PyVal
  | .expression b => visit b
  | .constant c =>
    match c with
    | .int n => .ok (.int n)
    | .float q => .ok (.float q)
    | .bool b => .ok (.bool b)
    | c => .error (.valueError ("Unsupported constant: " ++ c.pyRepr))
  | .binOp l op r =>
    if allowedBin op then
      match visit l with
      | .error e => .error e
      | .ok a =>
        match visit r with
        | .error e => .error e
        | .ok b => applyBin op a b
    else .error (.valueError ("Unsupported binary operator: " ++ op.pyName))
  | .unaryOp op x =>
    if allowedUnary op then
      match visit x with
      | .error e => .error e
      | .ok v => applyUnary op v
    else .error (.valueError ("Unsupported unary operator: " ++ op.pyName))
  | .name _ => .error (.valueError "Unsupported expression component: Name")
  | .call _ _ => .error (.valueError "Unsupported expression component: Call")
  | .attribute _ _ => .error (.valueError "Unsupported expression component: Attribute")
  | .list _ => .error (.valueError "Unsupported expression component: List")
  | .tuple _ => .error (.valueError "Unsupported expression component: Tuple")

deriving instance DecidableEq for Except

example : visit (.binOp (.constant (.int 2)) .add (.constant (.int 3))) = .ok (.int 5) := by decide
example : visit (.binOp (.constant (.int 4)) .div (.constant (.int 2))) = .ok (.float 2) := by decide
example : visit (.binOp (.constant (.int 1)) .div (.constant (.int 0))) = .error (.zeroDivisionError "division by zero") := by decide

/-- Tokens of the CPython lexer, restricted to the fragment this program's
inputs exercise (see the header comment). -/
inductive Tok where
  | numInt (n : Int)
  | numFloat (q : ℚ)
  | name (s : String)
  | strLit (s : String)
  | plus | minus | star | slash | dslash | percent | dstar
  | lparen | rparen | lbracket | rbracket | comma
deriving DecidableEq, Repr

/-- Value of one digit character (supports bases up to 16). -/
def digitVal (c : Char) : Nat :=
  if c.isDigit then c.toNat - 48
  else if decide ('a' ≤ c) && decide (c ≤ 'f') then c.toNat - 87
  else c.toNat - 55

/-- Value of a digit string in the given base. -/
def digitsToNat (base : Nat) (ds : List Char) : Nat :=
  ds.foldl (fun acc c => acc * base + digitVal c) 0

/-- Hexadecimal digit test. -/
def isHexDigit (c : Char) : Bool :=
  c.isDigit || (decide ('a' ≤ c) && decide (c ≤ 'f')) || (decide ('A' ≤ c) && decide (c ≤ 'F'))

/-- Binary digit test. -/
def isBinDigit (c : Char) : Bool := c == '0' || c == '1'

/-- Octal digit test. -/
def isOctDigit (c : Char) : Bool := decide ('0' ≤ c) && decide (c ≤ '7')

/-- Greedily read a run of digits satisfying `p`, allowing single underscores
between digits (and after a radix prefix), as CPython's lexer does.  Returns
the digits (underscores removed) and the unconsumed rest; stops before an
underscore that is not followed by a digit. -/
def takeDigitsUnd (p : Char → Bool) : List Char → List Char × List Char
  | [] => ([], [])
  | c :: cs =>
    if p c then
      let r := takeDigitsUnd p cs
      (c :: r.1, r.2)
    else if c == '_' then
      match cs with
      | c2 :: cs2 =>
        if p c2 then
          let r := takeDigitsUnd p cs2
          (c2 :: r.1, r.2)
        else ([], c :: cs)
      | [] => ([], [c])
    else ([], c :: cs)

/-- Greedily read a run of characters satisfying `p`. -/
def takeWhileP (p : Char → Bool) : List Char → List Char × List Char
  | [] => ([], [])
  | c :: cs =>
    if p c then
      let r := takeWhileP p cs
      (c :: r.1, r.2)
    else ([], c :: cs)

/-- Power of ten with integer exponent, for decimal-literal values. -/
def pow10 (k : Int) : ℚ := qZpow 10 k

/-- Read the exponent part of a float literal (after the `e` / `E`). -/
def lexExp (mant : ℚ) (cs : List Char) : Except String (Tok × List Char) :=
  let sc : Bool × List Char :=
    match cs with
    | '+' :: r => (true, r)
    | '-' :: r => (false, r)
    | _ => (true, cs)
  match takeDigitsUnd Char.isDigit sc.2 with
  | ([], _) => .error "invalid decimal literal"
  | (ds, rest) =>
    let e : Nat := digitsToNat 10 ds
    let q := if sc.1 then qMul mant (pow10 (e : Int)) else qMul mant (pow10 (-(e : Int)))
    .ok (.numFloat q, rest)

/-- A decimal integer literal with a leading zero and a nonzero digit is a
CPython `SyntaxError` (`"01"`); all-zero literals (`"00"`) are legal. -/
def leadingZeroBad : List Char → Bool
  | '0' :: rest => rest.any (fun c => c != '0')
  | _ => false

/-- Read a decimal integer or float literal (digits, optional fraction,
optional exponent), mirroring CPython's `number` lexical rules on this
fragment.  Exact rational values stand in for CPython's IEEE rounding. -/
def lexDecimal (cs : List Char) : Except String (Tok × List Char) :=
  let p1 := takeDigitsUnd Char.isDigit cs
  match p1.2 with
  | '.' :: r2 =>
    let p2 := takeDigitsUnd Char.isDigit r2
    if p1.1 = [] && p2.1 = [] then .error "invalid syntax"
    else
      let mant : ℚ := qMul ((digitsToNat 10 (p1.1 ++ p2.1) : Int) : ℚ) (pow10 (-(p2.1.length : Int)))
      match p2.2 with
      | 'e' :: r4 => lexExp mant r4
      | 'E' :: r4 => lexExp mant r4
      | r3 => .ok (.numFloat mant, r3)
  | 'e' :: r2 =>
    if p1.1 = [] then .error "invalid syntax"
    else lexExp ((digitsToNat 10 p1.1 : Int) : ℚ) r2
  | 'E' :: r2 =>
    if p1.1 = [] then .error "invalid syntax"
    else lexExp ((digitsToNat 10 p1.1 : Int) : ℚ) r2
  | r1 =>
    if p1.1 = [] then .error "invalid syntax"
    else if leadingZeroBad p1.1 then .error "leading zeros in decimal integer literals are not permitted"
    else .ok (.numInt (digitsToNat 10 p1.1 : Int), r1)

/-- Read a radix-prefixed integer literal (after the `0x` / `0o` / `0b`). -/
def lexRadix (base : Nat) (p : Char → Bool) (cs : List Char) : Except String (Tok × List Char) :=
  match takeDigitsUnd p cs with
  | ([], _) => .error "invalid syntax"
  | (ds, rest) => .ok (.numInt (digitsToNat base ds : Int), rest)

/-- Read a numeric literal: radix-prefixed integers, or decimal forms. -/
def lexNumber (cs : List Char) : Except String (Tok × List Char) :=
  match cs with
  | '0' :: c2 :: rest =>
    if c2 == 'x' || c2 == 'X' then lexRadix 16 isHexDigit rest
    else if c2 == 'o' || c2 == 'O' then lexRadix 8 isOctDigit rest
    else if c2 == 'b' || c2 == 'B' then lexRadix 2 isBinDigit rest
    else lexDecimal cs
  | _ => lexDecimal cs

/-- Read a string literal body up to the closing quote `q` (no escape
sequences: none occur in this program's domain). -/
def lexStrAux (q : Char) : List Char → Option (List Char × List Char)
  | [] => Option.none
  | c :: cs =>
    if c == q then some ([], cs)
    else
      match lexStrAux q cs with
      | some (content, rest) => some (c :: content, rest)
      | Option.none => Option.none

/-- Identifier-start character. -/
def isIdentStart (c : Char) : Bool := c.isAlpha || c == '_'

/-- Identifier-continuation character. -/
def isIdentCont (c : Char) : Bool := c.isAlpha || c.isDigit || c == '_'

/-- Prepend a token to a tokenizer result. -/
def consTok (t : Tok) : Except String (List Tok) → Except String (List Tok)
  | .ok ts => .ok (t :: ts)
  | .error e => .error e

/-- The CPython lexer on this fragment.  Fuel decreases every step; each step
consumes at least one character, so `length + 1` fuel never runs out. -/
def tokenizeAux : Nat → List Char → Except String (List Tok)
  | 0, _ => .error "tokenizer fuel exhausted"
  | _, [] => .ok []
  | fuel + 1, c :: cs =>
    if c == ' ' || c == '\t' || c == '\n' || c == '\r' then tokenizeAux fuel cs
    else if c.isDigit || (c == '.' && (match cs with | c2 :: _ => c2.isDigit | [] => false)) then
      match lexNumber (c :: cs) with
      | .error e => .error e
      | .ok (t, rest) => consTok t (tokenizeAux fuel rest)
    else if isIdentStart c then
      let p := takeWhileP isIdentCont cs
      consTok (.name (String.mk (c :: p.1))) (tokenizeAux fuel p.2)
    else if c == '\'' || c == '"' then
      match lexStrAux c cs with
      | some (content, rest) => consTok (.strLit (String.mk content)) (tokenizeAux fuel rest)
      | Option.none => .error "unterminated string literal"
    else if c == '*' then
      match cs with
      | '*' :: r => consTok .dstar (tokenizeAux fuel r)
      | _ => consTok .star (tokenizeAux fuel cs)
    else if c == '/' then
      match cs with
      | '/' :: r => consTok .dslash (tokenizeAux fuel r)
      | _ => consTok .slash (tokenizeAux fuel cs)
    else if c == '+' then consTok .plus (tokenizeAux fuel cs)
    else if c == '-' then consTok .minus (tokenizeAux fuel cs)
    else if c == '%' then consTok .percent (tokenizeAux fuel cs)
    else if c == '(' then consTok .lparen (tokenizeAux fuel cs)
    else if c == ')' then consTok .rparen (tokenizeAux fuel cs)
    else if c == '[' then consTok .lbracket (tokenizeAux fuel cs)
    else if c == ']' then consTok .rbracket (tokenizeAux fuel cs)
    else if c == ',' then consTok .comma (tokenizeAux fuel cs)
    else .error "invalid character"

/-- Tokenize an input string. -/
def tokenize (s : String) : Except String (List Tok) :=
  tokenizeAux (s.toList.length + 1) s.toList

example : tokenize "2 + 3" = .ok [.numInt 2, .plus, .numInt 3] := by decide
example : tokenize "0xff" = .ok [.numInt 255] := by decide
example : tokenize "1_000" = .ok [.numInt 1000] := by decide
example : tokenize "0.5" = .ok [.numFloat (mkRat 1 2)] := by decide
example : tokenize "1e3" = .ok [.numFloat 1000] := by decide

/- The CPython expression grammar on this fragment, by mutual recursive
descent on an explicit fuel (CPython's own parser is recursive and
stack-bounded; any fuel large enough for the input gives its behaviour).
Precedence and associativity follow CPython's grammar:

    sum     := term (("+" | "-") term)*           -- left-associative
    term    := factor (("*" | "/" | "//" | "%") factor)*   -- left-associative
    factor  := ("+" | "-") factor | power         -- unary binds below "**" on the left
    power   := atomExpr ("**" factor)?            -- right-associative, unary exponent allowed
    atomExpr := atom ("(" args? ")")*             -- call trailers
    atom    := NUMBER | STRING | NAME | "(" ... ")" | "[" ... "]"

so `-2 ** 2` parses as `-(2 ** 2)` and `2 ** -2` as `2 ** (-2)`, exactly as
in CPython.  `True` / `False` / `None` are keyword constants.  `()` is an
empty tuple display, `(e)` is grouping, `(e, ...)` a tuple display, and
`[...]` a list display. -/
mutual

def parseSum : Nat → List Tok → Except String (PyExpr × List Tok)
  | 0, _ => .error "expression too deeply nested"
  | fuel + 1, toks =>
    match parseTerm fuel toks with
    | .error e => .error e
    | .ok (e, rest) => parseSumRest fuel e rest

def parseSumRest : Nat → PyExpr → List Tok → Except String (PyExpr × List Tok)
  | 0, _, _ => .error "expression too deeply nested"
  | fuel + 1, acc, toks =>
    match toks with
    | .plus :: r =>
      match parseTerm fuel r with
      | .error e => .error e
      | .ok (e2, r2) => parseSumRest fuel (.binOp acc .add e2) r2
    | .minus :: r =>
      match parseTerm fuel r with
      | .error e => .error e
      | .ok (e2, r2) => parseSumRest fuel (.binOp acc .sub e2) r2
    | _ => .ok (acc, toks)

def parseTerm : Nat → List Tok → Except String (PyExpr × List Tok)
  | 0, _ => .error "expression too deeply nested"
  | fuel + 1, toks =>
    match parseFactor fuel toks with
    | .error e => .error e
    | .ok (e, rest) => parseTermRest fuel e rest

def parseTermRest : Nat → PyExpr → List Tok → Except String (PyExpr × List Tok)
  | 0, _, _ => .error "expression too deeply nested"
  | fuel + 1, acc, toks =>
    match toks with
    | .star :: r =>
      match parseFactor fuel r with
      | .error e => .error e
      | .ok (e2, r2) => parseTermRest fuel (.binOp acc .mult e2) r2
    | .slash :: r =>
      match parseFactor fuel r with
      | .error e => .error e
      | .ok (e2, r2) => parseTermRest fuel (.binOp acc .div e2) r2
    | .dslash :: r =>
      match parseFactor fuel r with
      | .error e => .error e
      | .ok (e2, r2) => parseTermRest fuel (.binOp acc .floorDiv e2) r2
    | .percent :: r =>
      match parseFactor fuel r with
      | .error e => .error e
      | .ok (e2, r2) => parseTermRest fuel (.binOp acc .mod e2) r2
    | _ => .ok (acc, toks)

def parseFactor : Nat → List Tok → Except String (PyExpr × List Tok)
  | 0, _ => .error "expression too deeply nested"
  | fuel + 1, toks =>
    match toks with
    | .plus :: r =>
      match parseFactor fuel r with
      | .error e => .error e
      | .ok (e, rest) => .ok (.unaryOp .uAdd e, rest)
    | .minus :: r =>
      match parseFactor fuel r with
      | .error e => .error e
      | .ok (e, rest) => .ok (.unaryOp .uSub e, rest)
    | _ => parsePower fuel toks

def parsePower : Nat → List Tok → Except String (PyExpr × List Tok)
  | 0, _ => .error "expression too deeply nested"
  | fuel + 1, toks =>
    match parseAtomExpr fuel toks with
    | .error e => .error e
    | .ok (a, rest) =>
      match rest with
      | .dstar :: r2 =>
        match parseFactor fuel r2 with
        | .error e => .error e
        | .ok (b, r3) => .ok (.binOp a .pow b, r3)
      | _ => .ok (a, rest)

def parseAtomExpr : Nat → List Tok → Except String (PyExpr × List Tok)
  | 0, _ => .error "expression too deeply nested"
  | fuel + 1, toks =>
    match parseAtom fuel toks with
    | .error e => .error e
    | .ok (a, rest) => parseTrailers fuel a rest

def parseTrailers : Nat → PyExpr → List Tok → Except String (PyExpr × List Tok)
  | 0, _, _ => .error "expression too deeply nested"
  | fuel + 1, a, toks =>
    match toks with
    | .lparen :: .rparen :: r2 => parseTrailers fuel (.call a []) r2
    | .lparen :: r => parseCallTail fuel a r
    | _ => .ok (a, toks)

def parseCallTail : Nat → PyExpr → List Tok → Except String (PyExpr × List Tok)
  | 0, _, _ => .error "expression too deeply nested"
  | fuel + 1, a, r =>
    match parseArgs fuel r with
    | .error e => .error e
    | .ok (args, r2) =>
      match r2 with
      | .rparen :: r3 => parseTrailers fuel (.call a args) r3
      | _ => .error "expected closing parenthesis"

def parseArgs : Nat → List Tok → Except String (List PyExpr × List Tok)
  | 0, _ => .error "expression too deeply nested"
  | fuel + 1, toks =>
    match parseSum fuel toks with
    | .error e => .error e
    | .ok (e, rest) =>
      match rest with
      | .comma :: .rparen :: r2 => .ok ([e], .rparen :: r2)
      | .comma :: .rbracket :: r2 => .ok ([e], .rbracket :: r2)
      | .comma :: r2 => parseArgsMore fuel e r2
      | _ => .ok ([e], rest)

def parseArgsMore : Nat → PyExpr → List Tok → Except String (List PyExpr × List Tok)
  | 0, _, _ => .error "expression too deeply nested"
  | fuel + 1, e, r2 =>
    match parseArgs fuel r2 with
    | .error e2 => .error e2
    | .ok (es, r3) => .ok (e :: es, r3)

def parseAtom : Nat → List Tok → Except String (PyExpr × List Tok)
  | 0, _ => .error "expression too deeply nested"
  | fuel + 1, toks =>
    match toks with
    | .numInt n :: r => .ok (.constant (.int n), r)
    | .numFloat q :: r => .ok (.constant (.float q), r)
    | .strLit s :: r => .ok (.constant (.str s), r)
    | .name s :: r =>
      if s == "True" then .ok (.constant (.bool true), r)
      else if s == "False" then .ok (.constant (.bool false), r)
      else if s == "None" then .ok (.constant .none, r)
      else .ok (.name s, r)
    | .lparen :: .rparen :: r2 => .ok (.tuple [], r2)
    | .lparen :: r => parseParenTail fuel r
    | .lbracket :: .rbracket :: r2 => .ok (.list [], r2)
    | .lbracket :: r => parseListTail fuel r
    | _ => .error "invalid syntax"

def parseParenTail : Nat → List Tok → Except String (PyExpr × List Tok)
  | 0, _ => .error "expression too deeply nested"
  | fuel + 1, r =>
    match parseSum fuel r with
    | .error e => .error e
    | .ok (e, rest) =>
      match rest with
      | .rparen :: r2 => .ok (e, r2)
      | .comma :: .rparen :: r3 => .ok (.tuple [e], r3)
      | .comma :: r2 => parseTupleTail fuel e r2
      | _ => .error "expected closing parenthesis"

def parseTupleTail : Nat → PyExpr → List Tok → Except String (PyExpr × List Tok)
  | 0, _, _ => .error "expression too deeply nested"
  | fuel + 1, head, toks =>
    match parseArgs fuel toks with
    | .error e => .error e
    | .ok (es, r3) =>
      match r3 with
      | .rparen :: r4 => .ok (.tuple (head :: es), r4)
      | _ => .error "expected closing parenthesis"

def parseListTail : Nat → List Tok → Except String (PyExpr × List Tok)
  | 0, _ => .error "expression too deeply nested"
  | fuel + 1, r =>
    match parseArgs fuel r with
    | .error e => .error e
    | .ok (es, rest) =>
      match rest with
      | .rbracket :: r2 => .ok (.list es, r2)
      | _ => .error "expected closing bracket"

end

/-- `ast.parse(expr, mode="eval")`: tokenize, parse one expression, require
end of input, wrap in an `ast.Expression` root.  Any failure is the host's
`SyntaxError`.  The fuel bound exceeds the parser's maximal recursion depth
on any token list of this length. -/
def parseExprString (s : String) : Except String PyExpr :=
  match tokenize s with
  | .error e => .error e
  | .ok ts =>
    match parseSum (10 * (ts.length + 1)) ts with
    | .error e => .error e
    | .ok (e, []) => .ok (.expression e)
    | .ok (_, _ :: _) => .error "invalid syntax"

/-- `eval_expr` (calculator.py lines 82-86): parse the text, then run
`_Evaluator` over the tree.  A parse failure is the host's `SyntaxError`;
everything else is the evaluator's result. -/
def eval_expr (s : String) : Except PyErr PyVal :=
  match parseExprString s with
  | .error m => .error (.syntaxError m)
  | .ok ast => visit ast

example : eval_expr "2 + 3 * 4" = .ok (.int 14) := by decide
example : eval_expr "(2 + 3) * 4" = .ok (.int 20) := by decide
example : eval_expr "2 ** 3 ** 2" = .ok (.int 512) := by decide
example : eval_expr "4 / 2" = .ok (.float 2) := by decide
example : eval_expr "4 // 2" = .ok (.int 2) := by decide
example : eval_expr "-2 ** 2" = .ok (.int (-4)) := by decide
example : eval_expr "--5" = .ok (.int 5) := by decide
example : eval_expr "-+-5" = .ok (.int 5) := by decide

/-- Whether a tree contains a node outside the safe grammar: an identifier, a
call, an attribute access, or a collection display (list or tuple).  These
are exactly the constructs through which host functionality could be
reached. -/
def containsBanned : PyExpr → Bool
  | .expression b => containsBanned b
  | .constant _ => false
  | .binOp l _ r => containsBanned l || containsBanned r
  | .unaryOp _ x => containsBanned x
  | .name _ => true
  | .call _ _ => true
  | .attribute _ _ => true
  | .list _ => true
  | .tuple _ => true

/-- The spec's "valid expression composed only of literals and the nine
operators" (spec §8): numeric-literal constants, the seven allowed binary
operators and the two unary ones, and nothing else. -/
def validSpecExpr : PyExpr → Bool
  | .expression b => validSpecExpr b
  | .constant (.int _) => true
  | .constant (.float _) => true
  | .constant _ => false
  | .binOp l op r => allowedBin op && validSpecExpr l && validSpecExpr r
  | .unaryOp op x => allowedUnary op && validSpecExpr x
  | _ => false

/-- Whether a value is of a numeric kind (int, float or complex) rather than
a boolean. -/
def numericKind : PyVal → Bool
  | .bool _ => false
  | _ => true

/-- Whether a value is of int or float kind — the spec's entire value domain
(spec §3). -/
def intOrFloatKind : PyVal → Bool
  | .int _ => true
  | .float _ => true
  | .floatUnk => true
  | _ => false

/-- Whether a result is a raised `SyntaxError`. -/
def isSyntaxErrorResult : Except PyErr PyVal → Bool
  | .error (.syntaxError _) => true
  | _ => false

/-- C1's general half: a tree containing a banned construct never evaluates
to a value — `visit` raises on every such tree.  (Which exception depends on
what fails first during the left-to-right visit; the three concrete inputs of
the claim all raise `ValueError`.) -/
theorem visit_errors_of_banned : ∀ e : PyExpr, containsBanned e = true → ∃ err, visit e = .error err
  | .expression b, h => by
    have ih := visit_errors_of_banned b (by simpa [containsBanned] using h)
    simpa [visit] using ih
  | .constant c, h => by simp [containsBanned] at h
  | .binOp l op r, h => by
    rw [containsBanned, Bool.or_eq_true] at h
    by_cases hop : allowedBin op = true
    · rcases h with hl | hr
      · obtain ⟨err, herr⟩ := visit_errors_of_banned l hl
        exact ⟨err, by simp [visit, hop, herr]⟩
      · cases hvl : visit l with
        | error e0 => exact ⟨e0, by simp [visit, hop, hvl]⟩
        | ok a =>
          obtain ⟨err, herr⟩ := visit_errors_of_banned r hr
          exact ⟨err, by simp [visit, hop, hvl, herr]⟩
    · exact ⟨.valueError ("Unsupported binary operator: " ++ op.pyName),
        by simp [visit, hop]⟩
  | .unaryOp op x, h => by
    rw [containsBanned] at h
    by_cases hop : allowedUnary op = true
    · obtain ⟨err, herr⟩ := visit_errors_of_banned x h
      exact ⟨err, by simp [visit, hop, herr]⟩
    · exact ⟨.valueError ("Unsupported unary operator: " ++ op.pyName),
        by simp [visit, hop]⟩
  | .name s, _ => ⟨.valueError "Unsupported expression component: Name", rfl⟩
  | .call f a, _ => ⟨.valueError "Unsupported expression component: Call", rfl⟩
  | .attribute v a, _ => ⟨.valueError "Unsupported expression component: Attribute", rfl⟩
  | .list es, _ => ⟨.valueError "Unsupported expression component: List", rfl⟩
  | .tuple es, _ => ⟨.valueError "Unsupported expression component: Tuple", rfl⟩

/-- `+`, `-`, `*` on numbers never produce a boolean. -/
theorem numericKind_binArith (fi : Int → Int → Int) (fq : ℚ → ℚ → ℚ) (a b : PyVal) :
    numericKind (binArith fi fq a b) = true := by
  cases a <;> cases b <;> rfl

/-- `/` on numbers returns a numeric value or raises `ZeroDivisionError`. -/
theorem binDiv_closure (a b : PyVal) :
    (∃ v, binDiv a b = .ok v ∧ numericKind v = true) ∨
    (∃ m, binDiv a b = .error (.zeroDivisionError m)) := by
  simp only [binDiv]
  split_ifs with hz
  · exact Or.inr ⟨_, rfl⟩
  · cases a <;> cases b <;> exact Or.inl ⟨_, rfl, rfl⟩

/-- `//` on numbers returns a numeric value, raises `ZeroDivisionError`, or
raises `TypeError` on a complex operand. -/
theorem binFloorDiv_closure (a b : PyVal) :
    (∃ v, binFloorDiv a b = .ok v ∧ numericKind v = true) ∨
    (∃ m, binFloorDiv a b = .error (.zeroDivisionError m)) ∨
    (∃ m, binFloorDiv a b = .error (.typeError m)) := by
  cases a <;> cases b <;>
    first
      | exact Or.inr (Or.inr ⟨_, rfl⟩)
      | (simp only [binFloorDiv]
         split_ifs with h
         · exact Or.inr (Or.inl ⟨_, rfl⟩)
         · exact Or.inl ⟨_, rfl, rfl⟩)

/-- `%` on numbers returns a numeric value, raises `ZeroDivisionError`, or
raises `TypeError` on a complex operand. -/
theorem binMod_closure (a b : PyVal) :
    (∃ v, binMod a b = .ok v ∧ numericKind v = true) ∨
    (∃ m, binMod a b = .error (.zeroDivisionError m)) ∨
    (∃ m, binMod a b = .error (.typeError m)) := by
  cases a <;> cases b <;>
    first
      | exact Or.inr (Or.inr ⟨_, rfl⟩)
      | (simp only [binMod]
         split_ifs with h
         · exact Or.inr (Or.inl ⟨_, rfl⟩)
         · exact Or.inl ⟨_, rfl, rfl⟩)

/-- `**` on numbers returns a numeric value or raises `ZeroDivisionError`. -/
theorem binPow_closure (a b : PyVal) :
    (∃ v, binPow a b = .ok v ∧ numericKind v = true) ∨
    (∃ m, binPow a b = .error (.zeroDivisionError m)) := by
  cases a <;> cases b <;>
    (simp only [binPow]
     repeat' split_ifs
     all_goals
       first
         | exact Or.inl ⟨_, rfl, rfl⟩
         | exact Or.inr ⟨_, rfl⟩)

/-- Dispatch through `_ALLOWED_BIN_OPS` on any two values: the result is a
numeric value, a `ZeroDivisionError`, or a `TypeError`. -/
theorem applyBin_closure (op : BinOpKind) (a b : PyVal) (hop : allowedBin op = true) :
    (∃ v, applyBin op a b = .ok v ∧ numericKind v = true) ∨
    (∃ m, applyBin op a b = .error (.zeroDivisionError m)) ∨
    (∃ m, applyBin op a b = .error (.typeError m)) := by
  cases op
  case add => exact Or.inl ⟨_, rfl, numericKind_binArith _ _ _ _⟩
  case sub => exact Or.inl ⟨_, rfl, numericKind_binArith _ _ _ _⟩
  case mult => exact Or.inl ⟨_, rfl, numericKind_binArith _ _ _ _⟩
  case div =>
    rcases binDiv_closure (coerceBool a) (coerceBool b) with h | h
    · exact Or.inl h
    · exact Or.inr (Or.inl h)
  case floorDiv => exact binFloorDiv_closure (coerceBool a) (coerceBool b)
  case mod => exact binMod_closure (coerceBool a) (coerceBool b)
  case pow =>
    rcases binPow_closure (coerceBool a) (coerceBool b) with h | h
    · exact Or.inl h
    · exact Or.inr (Or.inl h)
  all_goals simp [allowedBin] at hop

/-- Dispatch through `_ALLOWED_UNARY_OPS` on any value always yields a
numeric value. -/
theorem applyUnary_closure (op : UnaryOpKind) (v : PyVal) (hop : allowedUnary op = true) :
    ∃ w, applyUnary op v = .ok w ∧ numericKind w = true := by
  cases op
  case uAdd => cases v <;> exact ⟨_, rfl, rfl⟩
  case uSub => cases v <;> exact ⟨_, rfl, rfl⟩
  all_goals simp [allowedUnary] at hop

/-- C3's general half (amended): on every valid expression in the spec's
grammar, evaluation terminates with a value of numeric kind, or raises
`ZeroDivisionError`, or raises the host `TypeError` (a complex value meeting
`//` or `%`).  No other outcome — in particular no other exception and no
boolean value — is possible. -/
theorem visit_closure : ∀ e : PyExpr, validSpecExpr e = true →
    (∃ v, visit e = .ok v ∧ numericKind v = true) ∨
    (∃ m, visit e = .error (.zeroDivisionError m)) ∨
    (∃ m, visit e = .error (.typeError m))
  | .expression b, h => by
    have ih := visit_closure b (by simpa [validSpecExpr] using h)
    simpa [visit] using ih
  | .constant (.int n), _ => Or.inl ⟨_, rfl, rfl⟩
  | .constant (.float q), _ => Or.inl ⟨_, rfl, rfl⟩
  | .binOp l op r, h => by
    rw [validSpecExpr, Bool.and_eq_true, Bool.and_eq_true] at h
    obtain ⟨⟨hop, hl⟩, hr⟩ := h
    rcases visit_closure l hl with ⟨vl, hvl, hnl⟩ | ⟨m, hm⟩ | ⟨m, hm⟩
    · rcases visit_closure r hr with ⟨vr, hvr, hnr⟩ | ⟨m, hm⟩ | ⟨m, hm⟩
      · rcases applyBin_closure op vl vr hop with ⟨v, hv, hn⟩ | ⟨m, hm2⟩ | ⟨m, hm2⟩
        · exact Or.inl ⟨v, by simp [visit, hop, hvl, hvr, hv], hn⟩
        · exact Or.inr (Or.inl ⟨m, by simp [visit, hop, hvl, hvr, hm2]⟩)
        · exact Or.inr (Or.inr ⟨m, by simp [visit, hop, hvl, hvr, hm2]⟩)
      · exact Or.inr (Or.inl ⟨m, by simp [visit, hop, hvl, hm]⟩)
      · exact Or.inr (Or.inr ⟨m, by simp [visit, hop, hvl, hm]⟩)
    · exact Or.inr (Or.inl ⟨m, by simp [visit, hop, hm]⟩)
    · exact Or.inr (Or.inr ⟨m, by simp [visit, hop, hm]⟩)
  | .unaryOp op x, h => by
    rw [validSpecExpr, Bool.and_eq_true] at h
    obtain ⟨hop, hx⟩ := h
    rcases visit_closure x hx with ⟨v, hv, hn⟩ | ⟨m, hm⟩ | ⟨m, hm⟩
    · obtain ⟨w, hw, hnw⟩ := applyUnary_closure op v hop
      exact Or.inl ⟨w, by simp [visit, hop, hv, hw], hnw⟩
    · exact Or.inr (Or.inl ⟨m, by simp [visit, hop, hm]⟩)
    · exact Or.inr (Or.inr ⟨m, by simp [visit, hop, hm]⟩)
  | .constant (.bool _), h => by simp [validSpecExpr] at h
  | .constant (.str _), h => by simp [validSpecExpr] at h
  | .constant .none, h => by simp [validSpecExpr] at h
  | .name _, h => by simp [validSpecExpr] at h
  | .call _ _, h => by simp [validSpecExpr] at h
  | .attribute _ _, h => by simp [validSpecExpr] at h
  | .list _, h => by simp [validSpecExpr] at h
  | .tuple _, h => by simp [validSpecExpr] at h

/-- The `bool → int` coercion does not change zero-ness. -/
theorem isZero_coerceBool (v : PyVal) : (coerceBool v).isZero = v.isZero := by
  cases v
  case bool b => cases b <;> rfl
  all_goals rfl

/-- The `bool → int` coercion never produces a complex value. -/
theorem coerceBool_ne_complex (v : PyVal) (h : v ≠ .complexVal) : coerceBool v ≠ .complexVal := by
  cases v <;> simp_all [coerceBool]

/-- `/` with a zero divisor raises `ZeroDivisionError`, whatever the left
operand is. -/
theorem binDiv_zero (a b : PyVal) (hb : b.isZero = true) :
    binDiv a b = .error (.zeroDivisionError "division by zero") := by
  simp [binDiv, hb]

/-- `//` with a zero divisor and a non-complex left operand raises
`ZeroDivisionError`. -/
theorem binFloorDiv_zero (a b : PyVal) (ha : a ≠ .complexVal) (hb : b.isZero = true) :
    binFloorDiv a b = .error (.zeroDivisionError "integer division or modulo by zero") := by
  cases a <;> cases b <;> simp_all [PyVal.isZero, binFloorDiv]

/-- `%` with a zero divisor and a non-complex left operand raises
`ZeroDivisionError`. -/
theorem binMod_zero (a b : PyVal) (ha : a ≠ .complexVal) (hb : b.isZero = true) :
    binMod a b = .error (.zeroDivisionError "integer division or modulo by zero") := by
  cases a <;> cases b <;> simp_all [PyVal.isZero, binMod]

/-- C6's general half (amended): whenever both operands of `/`, `//` or `%`
evaluate, the left one to a non-complex value and the right one to zero, the
whole expression raises `ZeroDivisionError`. -/
theorem visit_divmod_zero (l r : PyExpr) (op : BinOpKind) (vl vr : PyVal)
    (hop : op = .div ∨ op = .floorDiv ∨ op = .mod)
    (hl : visit l = .ok vl) (hlc : vl ≠ .complexVal)
    (hr : visit r = .ok vr) (hz : vr.isZero = true) :
    ∃ m, visit (.binOp l op r) = .error (.zeroDivisionError m) := by
  have hallow : allowedBin op = true := by rcases hop with rfl | rfl | rfl <;> rfl
  have hv : visit (.binOp l op r) = applyBin op vl vr := by
    simp [visit, hallow, hl, hr]
  have hza : (coerceBool vr).isZero = true := by rw [isZero_coerceBool]; exact hz
  have hca : coerceBool vl ≠ .complexVal := coerceBool_ne_complex vl hlc
  rcases hop with rfl | rfl | rfl
  · exact ⟨"division by zero", by rw [hv]; exact binDiv_zero _ _ hza⟩
  · exact ⟨"integer division or modulo by zero",
      by rw [hv]; exact binFloorDiv_zero _ _ hca hza⟩
  · exact ⟨"integer division or modulo by zero",
      by rw [hv]; exact binMod_zero _ _ hca hza⟩

/-- Whether a value is of float kind. -/
def isFloatKind : PyVal → Bool
  | .float _ => true
  | .floatUnk => true
  | _ => false

/-- Whether a result is a returned value of float kind. -/
def resultIsFloatKind : Except PyErr PyVal → Bool
  | .ok v => isFloatKind v
  | .error _ => false

/-- C7's general half, first part: `/` on operands of int or float kind (with
a nonzero divisor) always returns a value of float kind — including for two
integer operands. -/
theorem binDiv_returns_float (a b : PyVal)
    (ha : intOrFloatKind a = true) (hb : intOrFloatKind b = true)
    (hz : b.isZero = false) :
    resultIsFloatKind (applyBin .div a b) = true := by
  cases a <;> cases b <;>
    simp_all [intOrFloatKind, resultIsFloatKind, applyBin, coerceBool, binDiv,
      PyVal.isZero, isFloatKind]

/-- C7's general half, second part: `//` on two integers (nonzero divisor)
returns the integer `m.fdiv n` — floor division toward `-∞`. -/
theorem floorDiv_int_int (m n : Int) (hn : n ≠ 0) :
    applyBin .floorDiv (.int m) (.int n) = .ok (.int (m.fdiv n)) := by
  show binFloorDiv (.int m) (.int n) = _
  simp [binFloorDiv, PyVal.isZero, hn]

/-- C4 (amended): `**` applied to a negative float base and a non-integral
float exponent returns a complex value — it does not raise. -/
theorem pow_neg_frac (a b : ℚ) (ha : a < 0) (hb : b.den ≠ 1) :
    applyBin .pow (.float a) (.float b) = .ok .complexVal := by
  show binPow (.float a) (.float b) = _
  have h1 : qIsInt b = false := by simp [qIsInt, hb]
  have h2 : ¬ a = 0 := ne_of_lt ha
  simp [binPow, PyVal.toQ, h1, ha, h2]

/-- Scan a token list tracking parenthesis depth.  `parenScan d ts` is the
final depth, or `Option.none` if a `)` appears at depth zero.  A token list is
parenthesis-balanced exactly when `parenScan 0 ts = some 0`. -/
def parenScan : Nat → List Tok → Option Nat
  | d, [] => some d
  | d, .lparen :: ts => parenScan (d + 1) ts
  | d, .rparen :: ts =>
    match d with
    | 0 => Option.none
    | d2 + 1 => parenScan d2 ts
  | d, _ :: ts => parenScan d ts

/-- Scanning a concatenation scans the pieces in sequence. -/
theorem parenScan_append : ∀ (a b : List Tok) (d : Nat),
    parenScan d (a ++ b) = (parenScan d a).bind (fun d2 => parenScan d2 b)
  | [], _, _ => rfl
  | .lparen :: ts, b, d => by
    simpa [parenScan] using parenScan_append ts b (d + 1)
  | .rparen :: ts, b, d => by
    cases d with
    | zero => simp [parenScan]
    | succ d2 => simpa [parenScan] using parenScan_append ts b d2
  | .numInt n :: ts, b, d => by simpa [parenScan] using parenScan_append ts b d
  | .numFloat q :: ts, b, d => by simpa [parenScan] using parenScan_append ts b d
  | .name s :: ts, b, d => by simpa [parenScan] using parenScan_append ts b d
  | .strLit s :: ts, b, d => by simpa [parenScan] using parenScan_append ts b d
  | .plus :: ts, b, d => by simpa [parenScan] using parenScan_append ts b d
  | .minus :: ts, b, d => by simpa [parenScan] using parenScan_append ts b d
  | .star :: ts, b, d => by simpa [parenScan] using parenScan_append ts b d
  | .slash :: ts, b, d => by simpa [parenScan] using parenScan_append ts b d
  | .dslash :: ts, b, d => by simpa [parenScan] using parenScan_append ts b d
  | .percent :: ts, b, d => by simpa [parenScan] using parenScan_append ts b d
  | .dstar :: ts, b, d => by simpa [parenScan] using parenScan_append ts b d
  | .lbracket :: ts, b, d => by simpa [parenScan] using parenScan_append ts b d
  | .rbracket :: ts, b, d => by simpa [parenScan] using parenScan_append ts b d
  | .comma :: ts, b, d => by simpa [parenScan] using parenScan_append ts b d

/-- Scanning from a deeper start shifts the result by the same amount. -/
theorem parenScan_shift : ∀ (a : List Tok) (d e k : Nat),
    parenScan d a = some e → parenScan (d + k) a = some (e + k)
  | [], d, e, k, h => by
    rw [parenScan] at h
    cases h
    rfl
  | .lparen :: ts, d, e, k, h => by
    have h2 : parenScan (d + 1) ts = some e := by simpa [parenScan] using h
    have h3 := parenScan_shift ts (d + 1) e k h2
    rw [Nat.add_right_comm] at h3
    simpa [parenScan] using h3
  | .rparen :: ts, d, e, k, h => by
    cases d with
    | zero => simp [parenScan] at h
    | succ d2 =>
      have h2 : parenScan d2 ts = some e := by simpa [parenScan] using h
      have h3 := parenScan_shift ts d2 e k h2
      show parenScan (d2 + 1 + k) (Tok.rparen :: ts) = some (e + k)
      rw [Nat.succ_add]
      simpa [parenScan] using h3
  | .numInt n :: ts, d, e, k, h => by
    simpa [parenScan] using parenScan_shift ts d e k (by simpa [parenScan] using h)
  | .numFloat q :: ts, d, e, k, h => by
    simpa [parenScan] using parenScan_shift ts d e k (by simpa [parenScan] using h)
  | .name s :: ts, d, e, k, h => by
    simpa [parenScan] using parenScan_shift ts d e k (by simpa [parenScan] using h)
  | .strLit s :: ts, d, e, k, h => by
    simpa [parenScan] using parenScan_shift ts d e k (by simpa [parenScan] using h)
  | .plus :: ts, d, e, k, h => by
    simpa [parenScan] using parenScan_shift ts d e k (by simpa [parenScan] using h)
  | .minus :: ts, d, e, k, h => by
    simpa [parenScan] using parenScan_shift ts d e k (by simpa [parenScan] using h)
  | .star :: ts, d, e, k, h => by
    simpa [parenScan] using parenScan_shift ts d e k (by simpa [parenScan] using h)
  | .slash :: ts, d, e, k, h => by
    simpa [parenScan] using parenScan_shift ts d e k (by simpa [parenScan] using h)
  | .dslash :: ts, d, e, k, h => by
    simpa [parenScan] using parenScan_shift ts d e k (by simpa [parenScan] using h)
  | .percent :: ts, d, e, k, h => by
    simpa [parenScan] using parenScan_shift ts d e k (by simpa [parenScan] using h)
  | .dstar :: ts, d, e, k, h => by
    simpa [parenScan] using parenScan_shift ts d e k (by simpa [parenScan] using h)
  | .lbracket :: ts, d, e, k, h => by
    simpa [parenScan] using parenScan_shift ts d e k (by simpa [parenScan] using h)
  | .rbracket :: ts, d, e, k, h => by
    simpa [parenScan] using parenScan_shift ts d e k (by simpa [parenScan] using h)
  | .comma :: ts, d, e, k, h => by
    simpa [parenScan] using parenScan_shift ts d e k (by simpa [parenScan] using h)

/-- A balanced segment scans to its start depth from any start. -/
theorem parenScan_of_zero (a : List Tok) (d : Nat) (h : parenScan 0 a = some 0) :
    parenScan d a = some d := by
  simpa using parenScan_shift a 0 0 d h

/-- The consumed prefix between a token list and its unconsumed suffix is
parenthesis-balanced.  This is the invariant every parser function below
maintains. -/
def InvOk (t1 t2 : List Tok) : Prop :=
  ∃ pre, t1 = pre ++ t2 ∧ parenScan 0 pre = some 0

theorem invOk_refl (t : List Tok) : InvOk t t := ⟨[], by simp, rfl⟩

theorem invOk_trans {t1 t2 t3 : List Tok} (h1 : InvOk t1 t2) (h2 : InvOk t2 t3) :
    InvOk t1 t3 := by
  obtain ⟨p1, rfl, n1⟩ := h1
  obtain ⟨p2, rfl, n2⟩ := h2
  refine ⟨p1 ++ p2, by simp, ?_⟩
  rw [parenScan_append, n1]
  simpa using n2

theorem invOk_cons {t1 t2 : List Tok} (t : Tok) (ht : parenScan 0 [t] = some 0)
    (h : InvOk t1 t2) : InvOk (t :: t1) t2 := by
  obtain ⟨p, rfl, n⟩ := h
  refine ⟨t :: p, by simp, ?_⟩
  have happ := parenScan_append [t] p 0
  rw [show t :: p = [t] ++ p from rfl, happ, ht]
  simpa using n

theorem invOk_paren {r r2 : List Tok} (h : InvOk r (Tok.rparen :: r2)) :
    InvOk (Tok.lparen :: r) r2 := by
  obtain ⟨p, hr, n⟩ := h
  refine ⟨Tok.lparen :: p ++ [Tok.rparen], ?_, ?_⟩
  · rw [hr]; simp
  · show parenScan 1 (p ++ [Tok.rparen]) = some 0
    rw [parenScan_append, parenScan_of_zero p 1 n]
    rfl

theorem invOk_bracket {r r2 : List Tok} (h : InvOk r (Tok.rbracket :: r2)) :
    InvOk (Tok.lbracket :: r) r2 := by
  obtain ⟨p, hr, n⟩ := h
  refine ⟨Tok.lbracket :: p ++ [Tok.rbracket], ?_, ?_⟩
  · rw [hr]; simp
  · show parenScan 0 (p ++ [Tok.rbracket]) = some 0
    rw [parenScan_append, n]
    rfl

/-- Every parser function consumes a parenthesis-balanced prefix: success of
any of them on `toks` leaving `rest` means the consumed tokens are balanced
(for the functions entered just after a `(` or `[`, the balance includes that
bracket and the consumed closing one).  Proved by induction on the fuel,
jointly for the whole mutual block. -/
theorem parserParenInv : ∀ fuel : Nat,
    (∀ toks e rest, parseSum fuel toks = .ok (e, rest) → InvOk toks rest) ∧
    (∀ acc toks e rest, parseSumRest fuel acc toks = .ok (e, rest) → InvOk toks rest) ∧
    (∀ toks e rest, parseTerm fuel toks = .ok (e, rest) → InvOk toks rest) ∧
    (∀ acc toks e rest, parseTermRest fuel acc toks = .ok (e, rest) → InvOk toks rest) ∧
    (∀ toks e rest, parseFactor fuel toks = .ok (e, rest) → InvOk toks rest) ∧
    (∀ toks e rest, parsePower fuel toks = .ok (e, rest) → InvOk toks rest) ∧
    (∀ toks e rest, parseAtomExpr fuel toks = .ok (e, rest) → InvOk toks rest) ∧
    (∀ a toks e rest, parseTrailers fuel a toks = .ok (e, rest) → InvOk toks rest) ∧
    (∀ a toks e rest, parseCallTail fuel a toks = .ok (e, rest) → InvOk (Tok.lparen :: toks) rest) ∧
    (∀ toks es rest, parseArgs fuel toks = .ok (es, rest) → InvOk toks rest) ∧
    (∀ e0 toks es rest, parseArgsMore fuel e0 toks = .ok (es, rest) → InvOk toks rest) ∧
    (∀ toks e rest, parseAtom fuel toks = .ok (e, rest) → InvOk toks rest) ∧
    (∀ toks e rest, parseParenTail fuel toks = .ok (e, rest) → InvOk (Tok.lparen :: toks) rest) ∧
    (∀ hd toks e rest, parseTupleTail fuel hd toks = .ok (e, rest) → InvOk toks (Tok.rparen :: rest)) ∧
    (∀ toks e rest, parseListTail fuel toks = .ok (e, rest) → InvOk (Tok.lbracket :: toks) rest) := by
  intro fuel
  induction fuel with
  | zero =>
    refine ⟨?_, ?_, ?_, ?_, ?_, ?_, ?_, ?_, ?_, ?_, ?_, ?_, ?_, ?_, ?_⟩ <;>
      intros <;>
      simp_all [parseSum, parseSumRest, parseTerm, parseTermRest, parseFactor,
        parsePower, parseAtomExpr, parseTrailers, parseCallTail, parseArgs,
        parseArgsMore, parseAtom, parseParenTail, parseTupleTail, parseListTail]
  | succ fuel ih =>
    obtain ⟨ihSum, ihSumRest, ihTerm, ihTermRest, ihFactor, ihPower, ihAtomExpr,
      ihTrailers, ihCallTail, ihArgs, ihArgsMore, ihAtom, ihParenTail,
      ihTupleTail, ihListTail⟩ := ih
    refine ⟨?_, ?_, ?_, ?_, ?_, ?_, ?_, ?_, ?_, ?_, ?_, ?_, ?_, ?_, ?_⟩
    · intro toks e rest h
      rw [parseSum] at h
      split at h
      all_goals first
        | (rename_i e1 r1 heq
           exact invOk_trans (ihTerm _ _ _ heq) (ihSumRest _ _ _ _ h))
        | simp at h
    · intro acc toks e rest h
      cases toks with
      | nil =>
        simp [parseSumRest] at h
        obtain ⟨h1, rfl⟩ := h
        exact invOk_refl _
      | cons t ts =>
        cases t
        case plus =>
          simp only [parseSumRest] at h
          split at h
          all_goals first
            | (rename_i e2 r2 heq2
               exact invOk_cons _ rfl
                 (invOk_trans (ihTerm _ _ _ heq2) (ihSumRest _ _ _ _ h)))
            | simp at h
        case minus =>
          simp only [parseSumRest] at h
          split at h
          all_goals first
            | (rename_i e2 r2 heq2
               exact invOk_cons _ rfl
                 (invOk_trans (ihTerm _ _ _ heq2) (ihSumRest _ _ _ _ h)))
            | simp at h
        all_goals (simp [parseSumRest] at h; obtain ⟨h1, rfl⟩ := h; exact invOk_refl _)
    · intro toks e rest h
      rw [parseTerm] at h
      split at h
      all_goals first
        | (rename_i e1 r1 heq
           exact invOk_trans (ihFactor _ _ _ heq) (ihTermRest _ _ _ _ h))
        | simp at h
    · intro acc toks e rest h
      cases toks with
      | nil =>
        simp [parseTermRest] at h
        obtain ⟨h1, rfl⟩ := h
        exact invOk_refl _
      | cons t ts =>
        cases t
        case star =>
          simp only [parseTermRest] at h
          split at h
          all_goals first
            | (rename_i e2 r2 heq2
               exact invOk_cons _ rfl
                 (invOk_trans (ihFactor _ _ _ heq2) (ihTermRest _ _ _ _ h)))
            | simp at h
        case slash =>
          simp only [parseTermRest] at h
          split at h
          all_goals first
            | (rename_i e2 r2 heq2
               exact invOk_cons _ rfl
                 (invOk_trans (ihFactor _ _ _ heq2) (ihTermRest _ _ _ _ h)))
            | simp at h
        case dslash =>
          simp only [parseTermRest] at h
          split at h
          all_goals first
            | (rename_i e2 r2 heq2
               exact invOk_cons _ rfl
                 (invOk_trans (ihFactor _ _ _ heq2) (ihTermRest _ _ _ _ h)))
            | simp at h
        case percent =>
          simp only [parseTermRest] at h
          split at h
          all_goals first
            | (rename_i e2 r2 heq2
               exact invOk_cons _ rfl
                 (invOk_trans (ihFactor _ _ _ heq2) (ihTermRest _ _ _ _ h)))
            | simp at h
        all_goals (simp [parseTermRest] at h; obtain ⟨h1, rfl⟩ := h; exact invOk_refl _)
    · intro toks e rest h
      cases toks with
      | nil =>
        simp only [parseFactor] at h
        exact ihPower _ _ _ h
      | cons t ts =>
        cases t
        case plus =>
          simp only [parseFactor] at h
          split at h
          all_goals first
            | (rename_i e1 r1 heq
               simp at h
               obtain ⟨h1, rfl⟩ := h
               exact invOk_cons _ rfl (ihFactor _ _ _ heq))
            | simp at h
        case minus =>
          simp only [parseFactor] at h
          split at h
          all_goals first
            | (rename_i e1 r1 heq
               simp at h
               obtain ⟨h1, rfl⟩ := h
               exact invOk_cons _ rfl (ihFactor _ _ _ heq))
            | simp at h
        all_goals (simp only [parseFactor] at h; exact ihPower _ _ _ h)
    · intro toks e rest h
      rw [parsePower] at h
      split at h
      all_goals first
        | (rename_i a r1 heq
           split at h
           all_goals first
             | (split at h
                all_goals first
                  | (rename_i b r3 heq2
                     simp at h
                     obtain ⟨h1, rfl⟩ := h
                     exact invOk_trans (ihAtomExpr _ _ _ heq)
                       (invOk_cons _ rfl (ihFactor _ _ _ heq2)))
                  | simp at h)
             | (simp at h
                obtain ⟨h1, rfl⟩ := h
                exact ihAtomExpr _ _ _ heq))
        | simp at h
    · intro toks e rest h
      rw [parseAtomExpr] at h
      split at h
      all_goals first
        | (rename_i a r1 heq
           exact invOk_trans (ihAtom _ _ _ heq) (ihTrailers _ _ _ _ h))
        | simp at h
    · intro a toks e rest h
      cases toks with
      | nil =>
        simp [parseTrailers] at h
        obtain ⟨h1, rfl⟩ := h
        exact invOk_refl _
      | cons t ts =>
        cases t
        case lparen =>
          cases ts with
          | nil =>
            simp only [parseTrailers] at h
            exact ihCallTail _ _ _ _ h
          | cons t2 ts2 =>
            cases t2
            case rparen =>
              simp only [parseTrailers] at h
              exact invOk_trans (invOk_paren (invOk_refl _)) (ihTrailers _ _ _ _ h)
            all_goals (simp only [parseTrailers] at h; exact ihCallTail _ _ _ _ h)
        all_goals (simp [parseTrailers] at h; obtain ⟨h1, rfl⟩ := h; exact invOk_refl _)
    · intro a r e rest h
      rw [parseCallTail] at h
      split at h
      all_goals first
        | (rename_i args r2 heq
           split at h
           all_goals first
             | (rename_i r3
                exact invOk_trans (invOk_paren (ihArgs _ _ _ heq)) (ihTrailers _ _ _ _ h))
             | simp at h)
        | simp at h
    · intro toks es rest h
      rw [parseArgs] at h
      split at h
      all_goals first
        | (rename_i e1 rest1 heq
           split at h
           all_goals first
             | (rename_i r2
                exact invOk_trans (ihSum _ _ _ heq) (invOk_cons _ rfl (ihArgsMore _ _ _ _ h)))
             | (simp at h
                obtain ⟨h1, rfl⟩ := h
                first
                  | exact ihSum _ _ _ heq
                  | exact invOk_trans (ihSum _ _ _ heq) (invOk_cons _ rfl (invOk_refl _))))
        | simp at h
    · intro e0 toks es rest h
      rw [parseArgsMore] at h
      split at h
      all_goals first
        | (rename_i es2 r3 heq
           simp at h
           obtain ⟨h1, rfl⟩ := h
           exact ihArgs _ _ _ heq)
        | simp at h
    · intro toks e rest h
      cases toks with
      | nil => simp [parseAtom] at h
      | cons t ts =>
        cases t
        case numInt n =>
          simp [parseAtom] at h
          obtain ⟨h1, rfl⟩ := h
          exact invOk_cons _ rfl (invOk_refl _)
        case numFloat q =>
          simp [parseAtom] at h
          obtain ⟨h1, rfl⟩ := h
          exact invOk_cons _ rfl (invOk_refl _)
        case strLit s =>
          simp [parseAtom] at h
          obtain ⟨h1, rfl⟩ := h
          exact invOk_cons _ rfl (invOk_refl _)
        case name s =>
          simp only [parseAtom] at h
          split_ifs at h <;> (simp at h; obtain ⟨h1, rfl⟩ := h) <;>
            exact invOk_cons _ rfl (invOk_refl _)
        case lparen =>
          cases ts with
          | nil =>
            simp only [parseAtom] at h
            exact ihParenTail _ _ _ h
          | cons t2 ts2 =>
            cases t2
            case rparen =>
              simp [parseAtom] at h
              obtain ⟨h1, rfl⟩ := h
              exact invOk_paren (invOk_refl _)
            all_goals (simp only [parseAtom] at h; exact ihParenTail _ _ _ h)
        case lbracket =>
          cases ts with
          | nil =>
            simp only [parseAtom] at h
            exact ihListTail _ _ _ h
          | cons t2 ts2 =>
            cases t2
            case rbracket =>
              simp [parseAtom] at h
              obtain ⟨h1, rfl⟩ := h
              exact invOk_bracket (invOk_refl _)
            all_goals (simp only [parseAtom] at h; exact ihListTail _ _ _ h)
        all_goals simp [parseAtom] at h
    · intro r e rest h
      rw [parseParenTail] at h
      split at h
      all_goals first
        | (rename_i e1 rest1 heq
           split at h
           all_goals first
             | (rename_i r2
                exact invOk_paren (invOk_trans (ihSum _ _ _ heq)
                  (invOk_cons _ rfl (ihTupleTail _ _ _ _ h))))
             | (simp at h
                obtain ⟨h1, rfl⟩ := h
                first
                  | exact invOk_paren (ihSum _ _ _ heq)
                  | exact invOk_paren (invOk_trans (ihSum _ _ _ heq)
                      (invOk_cons _ rfl (invOk_refl _))))
             | simp at h)
        | simp at h
    · intro hd toks e rest h
      rw [parseTupleTail] at h
      split at h
      all_goals first
        | (rename_i es r3 heq
           split at h
           all_goals first
             | (simp at h
                obtain ⟨h1, rfl⟩ := h
                exact ihArgs _ _ _ heq)
             | simp at h)
        | simp at h
    · intro r e rest h
      rw [parseListTail] at h
      split at h
      all_goals first
        | (rename_i es rest1 heq
           split at h
           all_goals first
             | (simp at h
                obtain ⟨h1, rfl⟩ := h
                exact invOk_bracket (ihArgs _ _ _ heq))
             | simp at h)
        | simp at h

/-- A successful parse implies the token stream was parenthesis-balanced. -/
theorem parse_ok_balanced (s : String) (ts : List Tok) (e : PyExpr)
    (ht : tokenize s = .ok ts) (hp : parseExprString s = .ok e) :
    parenScan 0 ts = some 0 := by
  simp only [parseExprString, ht] at hp
  split at hp
  all_goals first
    | (rename_i e1 heq
       obtain ⟨pre, hpre, hn⟩ := (parserParenInv _).1 _ _ _ heq
       simp only [List.append_nil] at hpre
       rw [hpre]
       exact hn)
    | simp at hp

/-- C9's general half (amended): an input that tokenizes to an unbalanced
token stream always fails with the host `SyntaxError`. -/
theorem unbalanced_syntax_error (s : String) (ts : List Tok)
    (ht : tokenize s = .ok ts) (hub : parenScan 0 ts ≠ some 0) :
    ∃ m, eval_expr s = .error (.syntaxError m) := by
  cases hp : parseExprString s with
  | error m => exact ⟨m, by simp only [eval_expr, hp]⟩
  | ok ast => exact absurd (parse_ok_balanced s ts ast ht hp) hub

/-- Whether a result is a raised `ZeroDivisionError`. -/
def isZeroDivisionResult : Except PyErr PyVal → Bool
  | .error (.zeroDivisionError _) => true
  | _ => false

/-- C1: `eval_expr` never executes host-environment functionality.  Every
tree containing an identifier, a call, an attribute access or a collection
display fails to evaluate — no value of any kind is returned — and the three
inputs the spec names each fail with the evaluator's `ValueError` (the
spec's `UnsupportedConstructError`). -/
theorem c1_banned_constructs_rejected :
    (∀ e : PyExpr, containsBanned e = true → ∃ err, visit e = .error err) ∧
    eval_expr "x + 1" = .error (.valueError "Unsupported expression component: Name") ∧
    eval_expr "__import__('os')" = .error (.valueError "Unsupported expression component: Call") ∧
    eval_expr "[1,2]" = .error (.valueError "Unsupported expression component: List") :=
  ⟨visit_errors_of_banned, by decide, by decide, by decide⟩

/-- C1 witness: the claim's general half applied at the concrete tree
`Name "os"`. -/
theorem c1_witness :
    containsBanned (PyExpr.name "os") = true ∧
    ∃ err, visit (PyExpr.name "os") = .error err :=
  ⟨by decide, c1_banned_constructs_rejected.1 (PyExpr.name "os") (by decide)⟩

/-- C2 counterexample: the code evaluates `-2 ** 2` to `-4`, not to
`(-2) ** 2 = 4` — exponentiation binds tighter than a leading unary minus in
CPython's grammar, contradicting the claim (and the spec's production
`power := unary ("**" power)?`). -/
theorem c2_counterexample :
    eval_expr "-2 ** 2" = .ok (.int (-4)) ∧
    eval_expr "-2 ** 2" ≠ .ok (.int 4) :=
  ⟨by decide, by decide⟩

/-- C2 (amended): in the code's grammar (`power := atomExpr ("**" factor)?`,
`factor := ("+"|"-") factor | power`), a leading unary minus applies after
the power — `-2 ** 2 = -(2 ** 2) = -4` — while a unary operator in the
exponent applies first — `2 ** -2 = 0.25`; parenthesising the base gives
`(-2) ** 2 = 4`. -/
theorem c2_amended_unary_pow :
    eval_expr "-2 ** 2" = .ok (.int (-4)) ∧
    eval_expr "(-2) ** 2" = .ok (.int 4) ∧
    eval_expr "2 ** -2" = .ok (.float (mkRat 1 4)) :=
  ⟨by decide, by decide, by decide⟩

/-- C3 counterexample: `(-1) ** 0.5` is a valid expression composed only of
literals and the nine operators, yet it evaluates to a complex number — not
an int/float numeric value and not one of the four defined error kinds; and
feeding that complex value to `//` raises a host `TypeError`, also outside
the four kinds. -/
theorem c3_counterexample :
    eval_expr "(-1) ** 0.5" = .ok .complexVal ∧
    intOrFloatKind PyVal.complexVal = false ∧
    eval_expr "(-1) ** 0.5 // 1" = .error (.typeError "can't take floor of complex number.") :=
  ⟨by decide, by decide, by decide⟩

/-- C3 (amended): evaluation of every valid expression composed only of
literals and the nine operators terminates and returns a value of numeric
kind (int, float, or — from `**` of a negative base with fractional
exponent — complex), or fails with `DivisionByZeroError`, or fails with the
host `TypeError` raised when a complex value meets `//` or `%`.  No other
outcome is possible. -/
theorem c3_amended_valid_closure (e : PyExpr) (hv : validSpecExpr e = true) :
    (∃ v, visit e = .ok v ∧ numericKind v = true) ∨
    (∃ m, visit e = .error (.zeroDivisionError m)) ∨
    (∃ m, visit e = .error (.typeError m)) :=
  visit_closure e hv

/-- C3 witness: the amended closure applied at the concrete valid tree
`1 + 2`. -/
theorem c3_witness :
    (∃ v, visit (PyExpr.binOp (.constant (.int 1)) .add (.constant (.int 2))) = .ok v ∧
       numericKind v = true) ∨
    (∃ m, visit (PyExpr.binOp (.constant (.int 1)) .add (.constant (.int 2))) =
       .error (.zeroDivisionError m)) ∨
    (∃ m, visit (PyExpr.binOp (.constant (.int 1)) .add (.constant (.int 2))) =
       .error (.typeError m)) :=
  c3_amended_valid_closure _ (by decide)

/-- C4 counterexample: `(-8) ** 0.5` — a fractional power of a negative
base — does not fail at all: it returns a complex-number value, a value
outside the spec's int/float domain.  No `ArithmeticDomainError` exists
anywhere in the code. -/
theorem c4_counterexample :
    eval_expr "(-8) ** 0.5" = .ok .complexVal ∧
    intOrFloatKind PyVal.complexVal = false :=
  ⟨by decide, by decide⟩

/-- C4 (amended): for every negative float base and non-integral float
exponent, `**` silently returns a complex-number value (host semantics)
instead of failing with the spec's `ArithmeticDomainError`, which the code
never defines or raises. -/
theorem c4_amended_pow_complex (a b : ℚ) (ha : a < 0) (hb : b.den ≠ 1) :
    applyBin .pow (.float a) (.float b) = .ok .complexVal :=
  pow_neg_frac a b ha hb

/-- C4 witness: the amended statement at base `-8`, exponent `1/2`. -/
theorem c4_witness :
    applyBin .pow (.float (-8)) (.float (mkRat 1 2)) = .ok .complexVal :=
  c4_amended_pow_complex (-8) (mkRat 1 2) (by decide) (by decide)

/-- C5 (code bug): `eval_expr "True"` returns the boolean `True` — a value
that is neither an integer nor a float — because `isinstance(True, int)`
holds in Python (`bool` is a subclass of `int`), so `visit_Constant`'s
check admits it; the boolean then flows into arithmetic (`True + 1 = 2`).
This contradicts both the spec ("no booleans ever produced") and the
module's own docstring ("Only numeric literals are allowed"). -/
theorem c5_bool_leak :
    eval_expr "True" = .ok (.bool true) ∧
    eval_expr "True + 1" = .ok (.int 2) ∧
    intOrFloatKind (.bool true) = false :=
  ⟨by decide, by decide, by decide⟩

/-- C6 counterexample: `(-1) ** 0.5 // 0` has a right operand of `//` that
evaluates to zero, yet evaluation fails with the host `TypeError` (complex
floor), not with `DivisionByZeroError`. -/
theorem c6_counterexample :
    eval_expr "(-1) ** 0.5 // 0" = .error (.typeError "can't take floor of complex number.") ∧
    isZeroDivisionResult (eval_expr "(-1) ** 0.5 // 0") = false :=
  ⟨by decide, by decide⟩

/-- C6 (amended): whenever both operands of `/`, `//` or `%` evaluate, the
left one to a non-complex value and the right one to zero, evaluation fails
with `ZeroDivisionError` (the spec's `DivisionByZeroError`); in particular
`1 / 0` and `1 % 0` each fail with it. -/
theorem c6_amended_div_zero :
    (∀ (l r : PyExpr) (op : BinOpKind) (vl vr : PyVal),
       (op = .div ∨ op = .floorDiv ∨ op = .mod) →
       visit l = .ok vl → vl ≠ .complexVal →
       visit r = .ok vr → vr.isZero = true →
       ∃ m, visit (.binOp l op r) = .error (.zeroDivisionError m)) ∧
    eval_expr "1 / 0" = .error (.zeroDivisionError "division by zero") ∧
    eval_expr "1 % 0" = .error (.zeroDivisionError "integer division or modulo by zero") :=
  ⟨fun l r op vl vr hop hl hlc hr hz => visit_divmod_zero l r op vl vr hop hl hlc hr hz,
   by decide, by decide⟩

/-- C6 witness: the amended statement at the concrete tree `1 / 0`. -/
theorem c6_witness :
    ∃ m, visit (.binOp (.constant (.int 1)) .div (.constant (.int 0))) =
      .error (.zeroDivisionError m) :=
  c6_amended_div_zero.1 _ _ _ _ _ (Or.inl rfl) rfl (by decide) rfl (by decide)

/-- C7: true division `/` always produces a float — `4 / 2 = 2.0` and, in
general, `/` on any int- or float-kind operands returns a float-kind value —
while floor division of two integers produces an integer: `4 // 2 = 2` and
in general `int // int` is the floor-divided integer. -/
theorem c7_division_kinds :
    eval_expr "4 / 2" = .ok (.float 2) ∧
    eval_expr "4 // 2" = .ok (.int 2) ∧
    (∀ a b : PyVal, intOrFloatKind a = true → intOrFloatKind b = true →
       b.isZero = false → resultIsFloatKind (applyBin .div a b) = true) ∧
    (∀ m n : Int, n ≠ 0 → applyBin .floorDiv (.int m) (.int n) = .ok (.int (m.fdiv n))) :=
  ⟨by decide, by decide, binDiv_returns_float, floorDiv_int_int⟩

/-- C7 witness: the two general halves at concrete operands `5 / 2` and
`9 // 4`. -/
theorem c7_witness :
    resultIsFloatKind (applyBin .div (.int 5) (.int 2)) = true ∧
    applyBin .floorDiv (.int 9) (.int 4) = .ok (.int (Int.fdiv 9 4)) :=
  ⟨c7_division_kinds.2.2.1 (.int 5) (.int 2) (by decide) (by decide) (by decide),
   c7_division_kinds.2.2.2 9 4 (by decide)⟩

/-- C8: exponentiation is right-associative: `2 ** 3 ** 2` evaluates to
`2 ** (3 ** 2) = 512`, not `(2 ** 3) ** 2 = 64`. -/
theorem c8_pow_right_assoc :
    eval_expr "2 ** 3 ** 2" = .ok (.int 512) ∧
    eval_expr "2 ** 3 ** 2" ≠ .ok (.int 64) :=
  ⟨by decide, by decide⟩

/-- C9 counterexample: the empty parentheses `"()"` parse as an empty tuple
display, so evaluation fails with the evaluator's `ValueError` (the spec's
`UnsupportedConstructError`), not with a `SyntaxError` as claimed. -/
theorem c9_counterexample :
    eval_expr "()" = .error (.valueError "Unsupported expression component: Tuple") ∧
    isSyntaxErrorResult (eval_expr "()") = false :=
  ⟨by decide, by decide⟩

/-- C9 (amended): every input whose token stream has unbalanced parentheses
fails with a `SyntaxError`; empty parentheses `"()"`, however, parse as an
empty tuple and fail with `UnsupportedConstructError` instead. -/
theorem c9_amended_parens :
    (∀ (s : String) (ts : List Tok), tokenize s = .ok ts →
       parenScan 0 ts ≠ some 0 → ∃ m, eval_expr s = .error (.syntaxError m)) ∧
    eval_expr "()" = .error (.valueError "Unsupported expression component: Tuple") :=
  ⟨unbalanced_syntax_error, by decide⟩

/-- C9 witness: the unbalanced input `"(1"` fails with a `SyntaxError`. -/
theorem c9_witness :
    ∃ m, eval_expr "(1" = .error (.syntaxError m) :=
  c9_amended_parens.1 "(1" [Tok.lparen, Tok.numInt 1] (by decide) (by decide)

/-- C10: numeric literal forms beyond integer/decimal/exponent notation are
accepted: hexadecimal, octal and binary literals and underscore digit
separators evaluate to their numeric values rather than being rejected. -/
theorem c10_numeric_literal_forms :
    eval_expr "0xff" = .ok (.int 255) ∧
    eval_expr "0o17" = .ok (.int 15) ∧
    eval_expr "0b101" = .ok (.int 5) ∧
    eval_expr "1_000" = .ok (.int 1000) :=
  ⟨by decide, by decide, by decide, by decide⟩
